import Mathlib

/-!
Verification of the MediaCrawler multi-account Weibo scraper core.

Shallow embedding of the identity pool (`multiaccountweiboscraper.py`),
the comment scraper progress store (`comment.py`), the crawler error
handler (`media_platform/weibo/core.py`), the proxy pool
(`sdk/proxy_manager.py`) and the account manager
(`sdk/account_manager.py`), together with theorems settling the spec
claims about them.

Timestamps are modelled as natural numbers of seconds.  Random draws
(jitter factors, `random.choice` indices) and external collaborators
(the proxy provider, per-attempt success or failure of a network call)
are universally quantified oracles.
-/

/-! ## Generic helper: first minimal element of a list.

Python's `list.sort(key=...)` is stable, so `sorted[0]` is the first
element attaining the minimal key.  `firstMinBy lt best l` returns the
first element of `best :: l` that is minimal with respect to the strict
order `lt`, which is exactly that element. -/

def firstMinBy {α : Type} (lt : α → α → Bool) : α → List α → α
  | best, [] => best
  | best, x :: xs => if lt x best then firstMinBy lt x xs else firstMinBy lt best xs

theorem firstMinBy_mem {α : Type} (lt : α → α → Bool) (best : α) (l : List α) :
    firstMinBy lt best l ∈ best :: l := by
  induction l generalizing best with
  | nil => simp [firstMinBy]
  | cons x xs ih =>
    simp only [firstMinBy]
    cases h : lt x best with
    | true =>
      simp only [if_true]
      have := ih x
      simp only [List.mem_cons] at this ⊢
      tauto
    | false =>
      simp only [Bool.false_eq_true, if_false]
      have := ih best
      simp only [List.mem_cons] at this ⊢
      tauto

/-- A strict order given as a Bool relation is admissible when it is
irreflexive, transitive, and negatively transitive in the sense used by
`firstMinBy_min`.  Lexicographic comparisons on tuples of naturals are. -/
structure IsStrictBoolOrder {α : Type} (lt : α → α → Bool) : Prop where
  irrefl : ∀ a, lt a a = false
  trans : ∀ a b c, lt a b = true → lt b c = true → lt a c = true
  le_lt_trans : ∀ a b c, lt b a = false → lt b c = true → lt a c = true

theorem firstMinBy_min {α : Type} (lt : α → α → Bool) (hlt : IsStrictBoolOrder lt)
    (l : List α) :
    ∀ best, ∀ b ∈ best :: l, lt b (firstMinBy lt best l) = false := by
  induction l with
  | nil =>
    intro best b hb
    simp only [List.mem_cons, List.not_mem_nil, or_false] at hb
    subst hb
    simpa [firstMinBy] using hlt.irrefl b
  | cons x xs ih =>
    intro best b hb
    simp only [firstMinBy]
    cases h : lt x best with
    | true =>
      simp only [if_true]
      rcases List.mem_cons.mp hb with hb' | hb'
      · -- b = best: if best were below the result, then x < best gives x below the result
        rw [hb']
        by_contra hc
        simp only [Bool.not_eq_false] at hc
        have hx : lt x (firstMinBy lt x xs) = false := ih x x (List.mem_cons_self x xs)
        have := hlt.trans x best (firstMinBy lt x xs) h hc
        rw [this] at hx
        exact Bool.true_eq_false.mp hx
      · exact ih x b hb'
    | false =>
      simp only [Bool.false_eq_true, if_false]
      rcases List.mem_cons.mp hb with hb' | hb'
      · rw [hb']
        exact ih best best (List.mem_cons_self best xs)
      · rcases List.mem_cons.mp hb' with hb'' | hb''
        · -- b = x: x is not below best, and best is not below the result
          rw [hb'']
          by_contra hc
          simp only [Bool.not_eq_false] at hc
          have hbest : lt best (firstMinBy lt best xs) = false :=
            ih best best (List.mem_cons_self best xs)
          have := hlt.le_lt_trans best x (firstMinBy lt best xs) h hc
          rw [this] at hbest
          exact Bool.true_eq_false.mp hbest
        · exact ih best b (List.mem_cons.mpr (Or.inr hb''))

namespace MultiAccountScraper

/-! ## `multiaccountweiboscraper.py` — `WeiboAccount` and account rotation -/

/-- The mutable per-account state of `WeiboAccount` (credential material
and browser handles are opaque and omitted). -/
structure WeiboAccount where
  username : String
  is_logged_in : Bool
  last_used_time : Nat
  request_count : Nat
  error_count : Nat
  cooldown_until : Nat
  deriving Repr, DecidableEq

/-- `WeiboAccount.is_in_cooldown`: `time.time() < self.cooldown_until`. -/
def is_in_cooldown (a : WeiboAccount) (now : Nat) : Bool :=
  now < a.cooldown_until

/-- `WeiboAccount.set_cooldown`: `self.cooldown_until = time.time() + minutes * 60`. -/
def set_cooldown (a : WeiboAccount) (now : Nat) (minutes : Nat) : WeiboAccount :=
  { a with cooldown_until := now + minutes * 60 }

/-- The selection order used by `rotate_account`:
`active_accounts.sort(key=lambda acc: (acc.error_count, acc.last_used_time, acc.request_count))`,
as a strict lexicographic comparison. -/
def accLt (a b : WeiboAccount) : Bool :=
  a.error_count < b.error_count ||
    (a.error_count == b.error_count &&
      (a.last_used_time < b.last_used_time ||
        (a.last_used_time == b.last_used_time && a.request_count < b.request_count)))

theorem accLt_strict : IsStrictBoolOrder accLt := by
  constructor
  · intro a
    simp [accLt]
  · intro a b c hab hbc
    simp only [accLt, Bool.or_eq_true, Bool.and_eq_true, beq_iff_eq,
      decide_eq_true_eq] at hab hbc ⊢
    omega
  · intro a b c hba hbc
    rw [Bool.eq_false_iff, ne_eq] at hba
    simp only [accLt, Bool.or_eq_true, Bool.and_eq_true, beq_iff_eq,
      decide_eq_true_eq] at hba hbc ⊢
    omega

/-- The accounts eligible for selection in `rotate_account`:
`[acc for acc in self.accounts if acc.is_logged_in and not acc.is_in_cooldown()]`. -/
def activeAccounts (accounts : List WeiboAccount) (now : Nat) : List WeiboAccount :=
  accounts.filter (fun a => a.is_logged_in && !(is_in_cooldown a now))

/-- The logged-in accounts currently cooling down:
`[acc for acc in self.accounts if acc.is_logged_in and acc.is_in_cooldown()]`. -/
def cooldownAccounts (accounts : List WeiboAccount) (now : Nat) : List WeiboAccount :=
  accounts.filter (fun a => a.is_logged_in && is_in_cooldown a now)

/-- The earliest `cooldown_until` among a list of accounts (the account the
code waits for after `cooldown_accounts.sort(key=lambda acc: acc.cooldown_until)`). -/
def minCooldownUntil : List WeiboAccount → Nat
  | [] => 0
  | a :: rest => rest.foldl (fun m b => min m b.cooldown_until) a.cooldown_until

/-- Result of `rotate_account`: a selected account together with the
time at which selection happened, the raised
`Exception("No active accounts available for rotation")`, or the calling
task blocking forever (with the time at which it blocks). -/
inductive RotateResult
  | ok (a : WeiboAccount) (t : Nat)
  | noActiveAccounts
  | deadlock (t : Nat)
  deriving Repr, DecidableEq

/-- `EnhancedWeiboScraper.rotate_account`.  The whole body runs inside
`async with self.account_lock:`.  When some logged-in account is out of
cooldown, the head of the stable sort of the active accounts by
`(error_count, last_used_time, request_count)` is returned at once (the
code then bumps its `last_used_time` and `request_count`, `markUsed`
below, which no claim here depends on).  When every logged-in account is
cooling down, the code sleeps `max(0, soonest.cooldown_until - now) + 1`
seconds and then runs `return await self.rotate_account()` while still
holding `account_lock`; `asyncio.Lock` is not reentrant, so the
recursive call blocks forever re-acquiring the lock this very task
already holds — the call deadlocks at that instant and never retries
selection.  When no account is logged in at all, the exception is raised
at once. -/
def rotate_account (accounts : List WeiboAccount) (now : Nat) : RotateResult :=
  match activeAccounts accounts now with
  | a :: rest => RotateResult.ok (firstMinBy accLt a rest) now
  | [] =>
    match cooldownAccounts accounts now with
    | [] => RotateResult.noActiveAccounts
    | c :: cs => RotateResult.deadlock (now + (minCooldownUntil (c :: cs) - now) + 1)

/-- Stat update applied by `rotate_account` to the selected account:
`account.last_used_time = utils.get_current_timestamp(); account.request_count += 1`. -/
def markUsed (a : WeiboAccount) (now : Nat) : WeiboAccount :=
  { a with last_used_time := now, request_count := a.request_count + 1 }

theorem mem_activeAccounts_not_cooldown {accounts : List WeiboAccount} {now : Nat}
    {a : WeiboAccount} (h : a ∈ activeAccounts accounts now) :
    a.cooldown_until ≤ now ∧ a.is_logged_in = true := by
  have := List.of_mem_filter h
  simp only [is_in_cooldown, Bool.and_eq_true, Bool.not_eq_true',
    decide_eq_false_iff_not, not_lt] at this
  exact ⟨this.2, this.1⟩

/-- Claim C2: whenever `rotate_account` returns an account, that account's
`cooldown_until` is not greater than the current time at the moment of
selection — an identity whose cooldown lies in the future is never selected. -/
theorem rotate_account_never_selects_cooling
    (accounts : List WeiboAccount) (now : Nat)
    (a : WeiboAccount) (t : Nat)
    (h : rotate_account accounts now = RotateResult.ok a t) :
    a.cooldown_until ≤ t := by
  unfold rotate_account at h
  cases hact : activeAccounts accounts now with
  | cons x rest =>
    rw [hact] at h
    have hmem : firstMinBy accLt x rest ∈ x :: rest := firstMinBy_mem accLt x rest
    rw [← hact] at hmem
    cases h
    exact (mem_activeAccounts_not_cooldown hmem).1
  | nil =>
    rw [hact] at h
    cases hcool : cooldownAccounts accounts now with
    | nil => rw [hcool] at h; simp at h
    | cons c cs => rw [hcool] at h; simp at h

/-- Concrete witness for C2: a two-account pool in which the first account
is cooling down; selection returns the second with its cooldown in the past. -/
theorem rotate_account_never_selects_cooling_witness :
    rotate_account
      [⟨"a", true, 0, 0, 0, 100⟩, ⟨"b", true, 5, 3, 1, 4⟩] 10 =
      RotateResult.ok ⟨"b", true, 5, 3, 1, 4⟩ 10 ∧
    (⟨"b", true, 5, 3, 1, 4⟩ : WeiboAccount).cooldown_until ≤ 10 := by
  refine ⟨by decide, ?_⟩
  exact rotate_account_never_selects_cooling
    [⟨"a", true, 0, 0, 0, 100⟩, ⟨"b", true, 5, 3, 1, 4⟩] 10
    ⟨"b", true, 5, 3, 1, 4⟩ 10 (by decide)

end MultiAccountScraper

namespace MultiAccountScraper

theorem mem_cooldownAccounts_cooling {accounts : List WeiboAccount} {now : Nat}
    {a : WeiboAccount} (h : a ∈ cooldownAccounts accounts now) :
    now < a.cooldown_until := by
  have := List.of_mem_filter h
  simp only [is_in_cooldown, Bool.and_eq_true, decide_eq_true_eq] at this
  exact this.2

theorem minCooldownUntil_foldl_gt {now : Nat} (l : List WeiboAccount) :
    ∀ acc, now < acc → (∀ a ∈ l, now < a.cooldown_until) →
      now < l.foldl (fun m b => min m b.cooldown_until) acc := by
  induction l with
  | nil => intro acc hacc _; simpa using hacc
  | cons x xs ih =>
    intro acc hacc hall
    simp only [List.foldl_cons]
    exact ih _ (lt_min hacc (hall x (List.mem_cons_self x xs)))
      (fun a ha => hall a (List.mem_cons.mpr (Or.inr ha)))

theorem minCooldownUntil_gt {accounts : List WeiboAccount} {now : Nat}
    {c : WeiboAccount} {cs : List WeiboAccount}
    (h : cooldownAccounts accounts now = c :: cs) :
    now < minCooldownUntil (c :: cs) := by
  have hmem : ∀ a ∈ c :: cs, now < a.cooldown_until := by
    intro a ha
    exact mem_cooldownAccounts_cooling (h ▸ ha)
  simp only [minCooldownUntil]
  exact minCooldownUntil_foldl_gt cs c.cooldown_until
    (hmem c (List.mem_cons_self c cs)) (fun a ha => hmem a (List.mem_cons.mpr (Or.inr ha)))

/-- Case behaviour of `rotate_account`.
(1) If some account is logged in and not cooling down, selection returns
immediately (at the current time) the account minimizing the tuple
`(error_count, last_used_time, request_count)` among those accounts.
(2) If every logged-in account is cooling down, the call sleeps until the
minimum `cooldown_until` among them plus the one-second buffer and then
blocks forever re-acquiring the non-reentrant `account_lock` it already
holds — selection is never retried.
(3) If no account is logged in at all, it fails at once with the
"no active accounts" error. -/
theorem rotate_account_cases (accounts : List WeiboAccount) (now : Nat) :
    (∀ a rest, activeAccounts accounts now = a :: rest →
      rotate_account accounts now =
        RotateResult.ok (firstMinBy accLt a rest) now ∧
      firstMinBy accLt a rest ∈ activeAccounts accounts now ∧
      ∀ b ∈ activeAccounts accounts now, accLt b (firstMinBy accLt a rest) = false)
    ∧ (activeAccounts accounts now = [] →
        ∀ c cs, cooldownAccounts accounts now = c :: cs →
          rotate_account accounts now =
            RotateResult.deadlock (minCooldownUntil (c :: cs) + 1))
    ∧ (activeAccounts accounts now = [] → cooldownAccounts accounts now = [] →
        rotate_account accounts now = RotateResult.noActiveAccounts) := by
  refine ⟨?_, ?_, ?_⟩
  · intro a rest hact
    refine ⟨?_, ?_, ?_⟩
    · unfold rotate_account
      rw [hact]
    · rw [hact]; exact firstMinBy_mem accLt a rest
    · rw [hact]; exact firstMinBy_min accLt accLt_strict rest a
  · intro hact c cs hcool
    unfold rotate_account
    rw [hact, hcool]
    have hgt : now < minCooldownUntil (c :: cs) := minCooldownUntil_gt hcool
    have harg : now + (minCooldownUntil (c :: cs) - now) + 1 =
        minCooldownUntil (c :: cs) + 1 := by omega
    dsimp only
    rw [harg]
  · intro hact hcool
    unfold rotate_account
    rw [hact, hcool]

/-- Claim C3, evaluated at its failing input: with a single logged-in
account cooling down until 100 at current time 10 — so every healthy
identity is in cooldown — `rotate_account` sleeps until the minimum
`cooldown_until` plus the one-second buffer and then, still holding the
non-reentrant `account_lock`, blocks forever re-acquiring it at time
101.  Selection is never retried and no identity is ever returned,
contrary to the claimed suspend-and-retry contract. -/
theorem rotate_account_all_cooling_deadlocks :
    activeAccounts [⟨"a", true, 0, 0, 0, 100⟩] 10 = [] ∧
    cooldownAccounts [⟨"a", true, 0, 0, 0, 100⟩] 10 = [⟨"a", true, 0, 0, 0, 100⟩] ∧
    rotate_account [⟨"a", true, 0, 0, 0, 100⟩] 10 = RotateResult.deadlock 101 := by
  refine ⟨by decide, by decide, by decide⟩

/-! ## `batch_get_comments.fetch_comments` — release of a blocked identity -/

/-- The handling of an explicit block signal ("412"/"403" in the error
text) inside `batch_get_comments.fetch_comments`: the inner handler runs
`account.error_count += 1; account.set_cooldown(minutes=20)` and re-raises,
and the outer retry handler then runs `account.error_count += 1` again. -/
def releaseBlocked (a : WeiboAccount) (now : Nat) : WeiboAccount :=
  let a1 := { a with error_count := a.error_count + 1 }
  let a2 := set_cooldown a1 now 20
  { a2 with error_count := a2.error_count + 1 }

/-- Counterexample to claim C8: the cooldown set on a blocked release is
not `now + cooldownDuration(errorCount)` for any duration that grows with
the error count — the code always uses a constant 20 minutes, so no
duration function that increases anywhere (e.g. 15 then 20+ minutes) can
describe it. -/
theorem releaseBlocked_duration_not_growing :
    ¬ ∃ d : Nat → Nat,
        (∃ i j : Nat, i < j ∧ d i < d j) ∧
        ∀ (a : WeiboAccount) (now : Nat),
          (releaseBlocked a now).cooldown_until = now + d a.error_count := by
  rintro ⟨d, ⟨i, j, hij, hd⟩, hall⟩
  have hi := hall ⟨"x", true, 0, 0, i, 0⟩ 0
  have hj := hall ⟨"x", true, 0, 0, j, 0⟩ 0
  simp [releaseBlocked, set_cooldown] at hi hj
  omega

/-- Claim C8 as amended: on a blocked release the account's
`cooldown_until` becomes `now + 20 * 60` (a constant 20 minutes,
independent of the error count), its error count increases (by 2: once in
the inner block handler and once in the outer retry handler), and the
identity is not marked unhealthy (`is_logged_in` is untouched). -/
theorem releaseBlocked_spec (a : WeiboAccount) (now : Nat) :
    (releaseBlocked a now).cooldown_until = now + 20 * 60 ∧
    (releaseBlocked a now).is_logged_in = a.is_logged_in ∧
    (releaseBlocked a now).error_count = a.error_count + 2 := by
  simp [releaseBlocked, set_cooldown]

end MultiAccountScraper

namespace CommentScraper

/-! ## `comment.py` — `WeiboCommentScraper` progress tracking

The scraper keeps two sets, `success_post_ids` and `failed_post_ids`
(the ProgressStore).  `scrape_comments_for_post_ids` processes each post
id once (skipping ids already in the success set); a processed id is
added to the success set when the attempt returns (even with zero
comments) and to the failed set when it raises.  `retry_failed_posts`
snapshots and clears the failed set, re-scrapes up to `max_retries`
times, and finally adds the ids still failing back into the failed set.

Python sets are modelled as duplicate-free lists with `addId` as the
insert-if-absent operation.  Batches run under a semaphore, but distinct
post ids are processed by exactly one batch and the per-id set updates
commute across distinct ids, so runs are modelled sequentially.  Whether
a given attempt succeeds is decided by an oracle indexed by a global
attempt counter (`tick`), so every interleaving of outcomes is covered. -/

/-- Set insertion (`set.add`): add the id unless already present. -/
def addId (l : List String) (pid : String) : List String :=
  if pid ∈ l then l else pid :: l

theorem mem_addId {l : List String} {pid q : String} :
    pid ∈ addId l q ↔ pid = q ∨ pid ∈ l := by
  unfold addId
  split
  · constructor
    · exact fun h => Or.inr h
    · rintro (h | h)
      · subst h; assumption
      · exact h
  · simp [List.mem_cons]

theorem addId_nodup {l : List String} (h : l.Nodup) (q : String) : (addId l q).Nodup := by
  unfold addId
  split
  · exact h
  · exact List.nodup_cons.mpr ⟨by assumption, h⟩

/-- The progress state: the two persisted id sets, plus the index of the
next attempt (the oracle clock; not part of the Python state). -/
structure ProgressState where
  success : List String
  failed : List String
  tick : Nat

/-- Outcome oracle: whether the k-th processing attempt of the run, on
the given post id, returns normally (`true`) or raises (`false`). -/
structure ScrapeEnv where
  outcome : Nat → String → Bool

/-- The per-post body of `process_batch`: skip ids already succeeded;
otherwise attempt the fetch, adding the id to the success set on return
and to the failed set on an exception. -/
def processPost (env : ScrapeEnv) (st : ProgressState) (pid : String) : ProgressState :=
  if pid ∈ st.success then st
  else if env.outcome st.tick pid then
    { st with success := addId st.success pid, tick := st.tick + 1 }
  else
    { st with failed := addId st.failed pid, tick := st.tick + 1 }

/-- `scrape_comments_for_post_ids`: process every submitted id. -/
def scrape_comments_for_post_ids (env : ScrapeEnv) (ids : List String)
    (st : ProgressState) : ProgressState :=
  ids.foldl (processPost env) st

theorem scrape_cons (env : ScrapeEnv) (q : String) (rest : List String) (st : ProgressState) :
    scrape_comments_for_post_ids env (q :: rest) st =
      scrape_comments_for_post_ids env rest (processPost env st q) := rfl

/-- The state updates of `retry_failed_posts`' retry loop: in each round,
re-scrape the pending ids, then snapshot and clear the failed set; stop
when nothing is pending or the round budget is exhausted.  Returns the
final pending snapshot together with the state. -/
def retryLoop (env : ScrapeEnv) : Nat → List String → ProgressState →
    List String × ProgressState
  | 0, toRetry, st => (toRetry, st)
  | fuel + 1, toRetry, st =>
    if toRetry = [] then ([], st)
    else
      let st1 := scrape_comments_for_post_ids env toRetry st
      retryLoop env fuel st1.failed { st1 with failed := [] }

/-- `retry_failed_posts`: if nothing failed, return; otherwise snapshot
and clear the failed set, run the retry loop, and put the ids that are
still pending back into the failed set
(`self.failed_post_ids.update(post_ids_to_retry)`). -/
def retry_failed_posts (env : ScrapeEnv) (maxRetries : Nat) (st : ProgressState) :
    ProgressState :=
  if st.failed = [] then st
  else
    let res := retryLoop env maxRetries st.failed { st with failed := [] }
    { res.2 with failed := res.1.foldl addId res.2.failed }

/-- The run of `scrape_comments_for_existing_content`: an initial scrape
over the submitted ids followed by `retry_failed_posts`. -/
def runScrapeAndRetry (env : ScrapeEnv) (maxRetries : Nat) (ids : List String)
    (st : ProgressState) : ProgressState :=
  retry_failed_posts env maxRetries (scrape_comments_for_post_ids env ids st)

/-- A post id holds exactly one terminal status in a progress state. -/
def hasOneStatus (st : ProgressState) (pid : String) : Prop :=
  (pid ∈ st.success ∧ pid ∉ st.failed) ∨ (pid ∉ st.success ∧ pid ∈ st.failed)

theorem processPost_cases (env : ScrapeEnv) (st : ProgressState) (q : String) :
    (q ∈ st.success ∧ processPost env st q = st) ∨
    (q ∉ st.success ∧
      processPost env st q = { st with success := addId st.success q, tick := st.tick + 1 }) ∨
    (q ∉ st.success ∧
      processPost env st q = { st with failed := addId st.failed q, tick := st.tick + 1 }) := by
  unfold processPost
  split
  · exact Or.inl ⟨by assumption, rfl⟩
  · split
    · exact Or.inr (Or.inl ⟨by assumption, rfl⟩)
    · exact Or.inr (Or.inr ⟨by assumption, rfl⟩)

theorem scrape_mem_success_of (env : ScrapeEnv) (pid : String) (ids : List String) :
    ∀ st : ProgressState, pid ∈ st.success →
      pid ∈ (scrape_comments_for_post_ids env ids st).success := by
  induction ids with
  | nil => intro st h; exact h
  | cons q rest ih =>
    intro st h
    rw [scrape_cons]
    rcases processPost_cases env st q with ⟨_, he⟩ | ⟨_, he⟩ | ⟨_, he⟩ <;>
      rw [he] <;> apply ih <;> simp [mem_addId, h]

theorem scrape_mem_failed_of (env : ScrapeEnv) (pid : String) (ids : List String) :
    ∀ st : ProgressState, pid ∈ st.failed →
      pid ∈ (scrape_comments_for_post_ids env ids st).failed := by
  induction ids with
  | nil => intro st h; exact h
  | cons q rest ih =>
    intro st h
    rw [scrape_cons]
    rcases processPost_cases env st q with ⟨_, he⟩ | ⟨_, he⟩ | ⟨_, he⟩ <;>
      rw [he] <;> apply ih <;> simp [mem_addId, h]

theorem scrape_success_from (env : ScrapeEnv) (pid : String) (ids : List String) :
    ∀ st : ProgressState, pid ∈ (scrape_comments_for_post_ids env ids st).success →
      pid ∈ st.success ∨ pid ∈ ids := by
  induction ids with
  | nil => intro st h; exact Or.inl h
  | cons q rest ih =>
    intro st h
    rw [scrape_cons] at h
    rcases processPost_cases env st q with ⟨_, he⟩ | ⟨_, he⟩ | ⟨_, he⟩ <;> rw [he] at h <;>
      rcases ih _ h with h' | h'
    · exact Or.inl h'
    · exact Or.inr (List.mem_cons.mpr (Or.inr h'))
    · rcases mem_addId.mp h' with h'' | h''
      · exact Or.inr (List.mem_cons.mpr (Or.inl h''))
      · exact Or.inl h''
    · exact Or.inr (List.mem_cons.mpr (Or.inr h'))
    · exact Or.inl h'
    · exact Or.inr (List.mem_cons.mpr (Or.inr h'))

theorem scrape_failed_from (env : ScrapeEnv) (pid : String) (ids : List String) :
    ∀ st : ProgressState, pid ∈ (scrape_comments_for_post_ids env ids st).failed →
      pid ∈ st.failed ∨ pid ∈ ids := by
  induction ids with
  | nil => intro st h; exact Or.inl h
  | cons q rest ih =>
    intro st h
    rw [scrape_cons] at h
    rcases processPost_cases env st q with ⟨_, he⟩ | ⟨_, he⟩ | ⟨_, he⟩ <;> rw [he] at h <;>
      rcases ih _ h with h' | h'
    · exact Or.inl h'
    · exact Or.inr (List.mem_cons.mpr (Or.inr h'))
    · exact Or.inl h'
    · exact Or.inr (List.mem_cons.mpr (Or.inr h'))
    · rcases mem_addId.mp h' with h'' | h''
      · exact Or.inr (List.mem_cons.mpr (Or.inl h''))
      · exact Or.inl h''
    · exact Or.inr (List.mem_cons.mpr (Or.inr h'))

/-- A post id already in the success set is skipped by every later
attempt and hence never enters the failed set. -/
theorem scrape_shield (env : ScrapeEnv) (pid : String) (ids : List String) :
    ∀ st : ProgressState, pid ∈ st.success → pid ∉ st.failed →
      pid ∉ (scrape_comments_for_post_ids env ids st).failed := by
  induction ids with
  | nil => intro st _ hnf; exact hnf
  | cons q rest ih =>
    intro st hs hnf
    rw [scrape_cons]
    rcases processPost_cases env st q with ⟨_, he⟩ | ⟨hq, he⟩ | ⟨hq, he⟩ <;> rw [he]
    · exact ih st hs hnf
    · exact ih _ (by simp [mem_addId, hs]) hnf
    · have hne : pid ≠ q := fun h => hq (h ▸ hs)
      refine ih _ hs ?_
      simp only [mem_addId]
      rintro (h | h)
      · exact hne h
      · exact hnf h

theorem scrape_failed_nodup (env : ScrapeEnv) (ids : List String) :
    ∀ st : ProgressState, st.failed.Nodup →
      (scrape_comments_for_post_ids env ids st).failed.Nodup := by
  induction ids with
  | nil => intro st h; exact h
  | cons q rest ih =>
    intro st h
    rw [scrape_cons]
    rcases processPost_cases env st q with ⟨_, he⟩ | ⟨_, he⟩ | ⟨_, he⟩ <;> rw [he]
    · exact ih st h
    · exact ih _ h
    · exact ih _ (addId_nodup h q)

theorem scrape_cov (env : ScrapeEnv) (pid : String) (ids : List String) :
    ∀ st : ProgressState, pid ∈ ids →
      pid ∈ (scrape_comments_for_post_ids env ids st).success ∨
      pid ∈ (scrape_comments_for_post_ids env ids st).failed := by
  induction ids with
  | nil => intro st h; simp at h
  | cons q rest ih =>
    intro st hmem
    rw [scrape_cons]
    rcases List.mem_cons.mp hmem with heq | htail
    · subst heq
      rcases processPost_cases env st pid with ⟨hs, he⟩ | ⟨_, he⟩ | ⟨_, he⟩ <;> rw [he]
      · exact Or.inl (scrape_mem_success_of env pid rest st hs)
      · exact Or.inl (scrape_mem_success_of env pid rest _ (by simp [mem_addId]))
      · exact Or.inr (scrape_mem_failed_of env pid rest _ (by simp [mem_addId]))
    · rcases processPost_cases env st q with ⟨_, he⟩ | ⟨_, he⟩ | ⟨_, he⟩ <;> rw [he] <;>
        exact ih _ htail

/-- Processing a duplicate-free id list assigns an id not already failed
exactly one terminal status. -/
theorem scrape_excl (env : ScrapeEnv) (pid : String) (ids : List String) :
    ∀ st : ProgressState, ids.Nodup → pid ∈ ids → pid ∉ st.failed →
      hasOneStatus (scrape_comments_for_post_ids env ids st) pid := by
  induction ids with
  | nil => intro st _ hmem _; simp at hmem
  | cons q rest ih =>
    intro st hnd hmem hnf
    have hnd' : rest.Nodup := (List.nodup_cons.mp hnd).2
    have hqrest : q ∉ rest := (List.nodup_cons.mp hnd).1
    rw [scrape_cons]
    rcases List.mem_cons.mp hmem with heq | htail
    · subst heq
      rcases processPost_cases env st pid with ⟨hs, he⟩ | ⟨hq, he⟩ | ⟨hq, he⟩ <;> rw [he]
      · exact Or.inl ⟨scrape_mem_success_of env pid rest st hs,
          scrape_shield env pid rest st hs hnf⟩
      · exact Or.inl ⟨scrape_mem_success_of env pid rest _ (by simp [mem_addId]),
          scrape_shield env pid rest _ (by simp [mem_addId]) hnf⟩
      · refine Or.inr ⟨?_, scrape_mem_failed_of env pid rest _ (by simp [mem_addId])⟩
        intro hcon
        rcases scrape_success_from env pid rest _ hcon with h' | h'
        · exact hq h'
        · exact hqrest h'
    · have hne : pid ≠ q := fun h => hqrest (h ▸ htail)
      rcases processPost_cases env st q with ⟨_, he⟩ | ⟨_, he⟩ | ⟨_, he⟩ <;> rw [he]
      · exact ih st hnd' htail hnf
      · exact ih _ hnd' htail hnf
      · refine ih _ hnd' htail ?_
        simp only [mem_addId]
        rintro (h | h)
        · exact hne h
        · exact hnf h

end CommentScraper

namespace CommentScraper

theorem mem_foldl_addId (rem : List String) :
    ∀ (l : List String) (pid : String), pid ∈ rem.foldl addId l ↔ pid ∈ l ∨ pid ∈ rem := by
  induction rem with
  | nil => intro l pid; simp
  | cons q rest ih =>
    intro l pid
    simp only [List.foldl_cons]
    rw [ih, mem_addId]
    simp only [List.mem_cons]
    tauto

theorem retryLoop_succ_ne (env : ScrapeEnv) (fuel : Nat) (toRetry : List String)
    (st : ProgressState) (h : toRetry ≠ []) :
    retryLoop env (fuel + 1) toRetry st =
      retryLoop env fuel (scrape_comments_for_post_ids env toRetry st).failed
        { scrape_comments_for_post_ids env toRetry st with failed := [] } := by
  rw [retryLoop]
  simp [h]

/-- Through the retry loop, any id that is either already succeeded or
pending ends with exactly one terminal status, provided at least one
retry round is available. -/
theorem retryLoop_exact (env : ScrapeEnv) (pid : String) :
    ∀ fuel : Nat, 1 ≤ fuel → ∀ (toRetry : List String) (st : ProgressState),
      toRetry.Nodup → st.failed = [] →
      (pid ∈ st.success ∨ pid ∈ toRetry) →
      hasOneStatus
        { (retryLoop env fuel toRetry st).2 with
          failed := (retryLoop env fuel toRetry st).1.foldl addId
            (retryLoop env fuel toRetry st).2.failed } pid := by
  intro fuel
  induction fuel with
  | zero => intro h; exact absurd h (by omega)
  | succ n ih =>
    intro _ toRetry st hnd hf hcov
    by_cases htr : toRetry = []
    · subst htr
      have hres : retryLoop env (n + 1) [] st = ([], st) := by rw [retryLoop]; simp
      rw [hres]
      rcases hcov with hs | hm
      · exact Or.inl ⟨hs, by simp [hf]⟩
      · simp at hm
    · rw [retryLoop_succ_ne env n toRetry st htr]
      cases n with
      | zero =>
        have hone : hasOneStatus (scrape_comments_for_post_ids env toRetry st) pid := by
          rcases hcov with hs | hm
          · exact Or.inl ⟨scrape_mem_success_of env pid toRetry st hs,
              scrape_shield env pid toRetry st hs (by simp [hf])⟩
          · exact scrape_excl env pid toRetry st hnd hm (by simp [hf])
        have hres : retryLoop env 0 (scrape_comments_for_post_ids env toRetry st).failed
            { scrape_comments_for_post_ids env toRetry st with failed := [] } =
            ((scrape_comments_for_post_ids env toRetry st).failed,
              { scrape_comments_for_post_ids env toRetry st with failed := [] }) := rfl
        rw [hres]
        unfold hasOneStatus at hone ⊢
        simp only [mem_foldl_addId, List.not_mem_nil, false_or]
        exact hone
      | succ m =>
        apply ih (by omega) (scrape_comments_for_post_ids env toRetry st).failed
          { scrape_comments_for_post_ids env toRetry st with failed := [] }
          (scrape_failed_nodup env toRetry st (by simp [hf])) rfl
        rcases hcov with hs | hm
        · exact Or.inl (scrape_mem_success_of env pid toRetry st hs)
        · exact scrape_cov env pid toRetry st hm

/-- Claim C1: for every list of submitted post ids, every outcome oracle
and every starting progress state with a well-formed (duplicate-free)
failed set, a completed run (initial scrape followed by
`retry_failed_posts` with at least one retry round, as
`scrape_comments_for_existing_content` does) leaves each submitted id
with exactly one terminal status: in the success set or in the failed
set, never both and never neither. -/
theorem run_exactly_one_terminal_status (env : ScrapeEnv) (maxRetries : Nat)
    (ids : List String) (st0 : ProgressState) (hfuel : 1 ≤ maxRetries)
    (hnd0 : st0.failed.Nodup) :
    ∀ pid ∈ ids, hasOneStatus (runScrapeAndRetry env maxRetries ids st0) pid := by
  intro pid hpid
  unfold runScrapeAndRetry retry_failed_posts
  by_cases hemp : (scrape_comments_for_post_ids env ids st0).failed = []
  · rw [if_pos hemp]
    rcases scrape_cov env pid ids st0 hpid with h | h
    · exact Or.inl ⟨h, by rw [hemp]; simp⟩
    · rw [hemp] at h; simp at h
  · rw [if_neg hemp]
    dsimp only
    exact retryLoop_exact env pid maxRetries hfuel
      (scrape_comments_for_post_ids env ids st0).failed
      { scrape_comments_for_post_ids env ids st0 with failed := [] }
      (scrape_failed_nodup env ids st0 hnd0) rfl
      (scrape_cov env pid ids st0 hpid)

/-- Concrete witness for C1: two submitted posts, the first attempt of
the run failing and every later attempt succeeding; both ids end with
exactly one terminal status. -/
theorem run_exactly_one_terminal_status_witness :
    1 ≤ 3 ∧ (ProgressState.mk [] [] 0).failed.Nodup ∧
      ∀ pid ∈ ["a", "b"],
        hasOneStatus
          (runScrapeAndRetry ⟨fun t _ => t != 0⟩ 3 ["a", "b"] (ProgressState.mk [] [] 0)) pid :=
  ⟨by decide, by decide,
    run_exactly_one_terminal_status ⟨fun t _ => t != 0⟩ 3 ["a", "b"]
      (ProgressState.mk [] [] 0) (by decide) (by decide)⟩

end CommentScraper

namespace CommentScraper

/-! ## `comment.py` — retry backoff of `_fetch_comments_with_retry`

`min_delay = 3.0`, `max_delay = 12.0`, `jitter = 0.5`;
`backoff_delay = min(max_delay, min_delay * (2 ** retry))`;
`jitter_delay = backoff_delay * (1 + random.uniform(-jitter, jitter))`.
Delays are rationals; the uniform draw is an oracle `u` with `|u| ≤ jitter`. -/

def min_delay : ℚ := 3

def max_delay : ℚ := 12

def jitter : ℚ := 1 / 2

def backoff_delay (retry : Nat) : ℚ := min max_delay (min_delay * 2 ^ retry)

def jitter_delay (retry : Nat) (u : ℚ) : ℚ := backoff_delay retry * (1 + u)

theorem backoff_delay_nonneg (r : Nat) : 0 ≤ backoff_delay r := by
  unfold backoff_delay max_delay min_delay
  positivity

end CommentScraper

namespace MultiAccountScraper

/-! ## `batch_get_comments.fetch_comments` — its own retry backoff

`retry_delay = 2`; before each retried attempt the code sleeps
`backoff + random.uniform(0, backoff * 0.5)` and then doubles `backoff`,
so the k-th wait (k = 0, 1, …) uses base `2 * 2 ^ k` and a one-sided
uniform draw modelled as `u ∈ [0, 1]` scaled by half the base. -/

def batch_backoff (k : Nat) : ℚ := 2 * 2 ^ k

def batch_sleep_time (k : Nat) (u : ℚ) : ℚ :=
  batch_backoff k + u * (batch_backoff k * (1 / 2))

theorem batch_backoff_pos (k : Nat) : 0 < batch_backoff k := by
  unfold batch_backoff
  positivity

end MultiAccountScraper

/-- Counterexample to claim C5: in `batch_get_comments.fetch_comments`
the jitter is one-sided, not symmetric — the first retry wait can reach
the base delay plus 50 % of it, but no admissible draw ever produces a
wait below the base delay, whereas a symmetric ±50 % jitter would. -/
theorem batch_jitter_not_symmetric :
    MultiAccountScraper.batch_sleep_time 0 1 =
      MultiAccountScraper.batch_backoff 0 + MultiAccountScraper.batch_backoff 0 * (1 / 2) ∧
    ¬ ∃ u : ℚ, 0 ≤ u ∧ u ≤ 1 ∧
        MultiAccountScraper.batch_sleep_time 0 u < MultiAccountScraper.batch_backoff 0 := by
  constructor
  · norm_num [MultiAccountScraper.batch_sleep_time]
  · rintro ⟨u, h0, h1, hlt⟩
    unfold MultiAccountScraper.batch_sleep_time MultiAccountScraper.batch_backoff at hlt
    norm_num at hlt
    nlinarith

/-- Claim C5 as amended: for a fixed unit, the base retry delay is
monotonically non-decreasing across attempts in both retry paths; in
`_fetch_comments_with_retry` it is capped at `max_delay`, the jittered
delay never exceeds the cap plus the jitter bound (50 % of the cap), and
the jitter is symmetric (±50 % of the base delay); in
`batch_get_comments.fetch_comments` the doubling base is uncapped
(attempts are bounded by `max_retries` instead) and the jitter is
one-sided — the wait always lies between the base delay and 1.5× it. -/
theorem retry_delay_spec :
    (∀ r s : Nat, r ≤ s →
      CommentScraper.backoff_delay r ≤ CommentScraper.backoff_delay s) ∧
    (∀ r : Nat, CommentScraper.backoff_delay r ≤ CommentScraper.max_delay) ∧
    (∀ (r : Nat) (u : ℚ), |u| ≤ CommentScraper.jitter →
      CommentScraper.jitter_delay r u ≤
        CommentScraper.max_delay + CommentScraper.max_delay * CommentScraper.jitter) ∧
    (∀ (r : Nat) (u : ℚ),
      CommentScraper.jitter_delay r u + CommentScraper.jitter_delay r (-u) =
        2 * CommentScraper.backoff_delay r) ∧
    (∀ k l : Nat, k ≤ l →
      MultiAccountScraper.batch_backoff k ≤ MultiAccountScraper.batch_backoff l) ∧
    (∀ (k : Nat) (u : ℚ), 0 ≤ u → u ≤ 1 →
      MultiAccountScraper.batch_backoff k ≤ MultiAccountScraper.batch_sleep_time k u ∧
      MultiAccountScraper.batch_sleep_time k u ≤
        MultiAccountScraper.batch_backoff k * (3 / 2)) := by
  refine ⟨?_, ?_, ?_, ?_, ?_, ?_⟩
  · intro r s h
    unfold CommentScraper.backoff_delay
    refine min_le_min le_rfl ?_
    have : (2 : ℚ) ^ r ≤ 2 ^ s := pow_le_pow_right₀ (by norm_num) h
    unfold CommentScraper.min_delay
    nlinarith
  · intro r
    unfold CommentScraper.backoff_delay
    exact min_le_left _ _
  · intro r u hu
    have hb1 : CommentScraper.backoff_delay r ≤ CommentScraper.max_delay :=
      min_le_left _ _
    have hb0 : 0 ≤ CommentScraper.backoff_delay r := CommentScraper.backoff_delay_nonneg r
    have hu' : u ≤ 1 / 2 := by
      have := (abs_le.mp hu).2
      simpa [CommentScraper.jitter] using this
    unfold CommentScraper.jitter_delay
    unfold CommentScraper.max_delay at hb1 ⊢
    unfold CommentScraper.jitter
    nlinarith
  · intro r u
    unfold CommentScraper.jitter_delay
    ring
  · intro k l h
    unfold MultiAccountScraper.batch_backoff
    have : (2 : ℚ) ^ k ≤ 2 ^ l := pow_le_pow_right₀ (by norm_num) h
    nlinarith
  · intro k u h0 h1
    have hb : 0 < MultiAccountScraper.batch_backoff k :=
      MultiAccountScraper.batch_backoff_pos k
    unfold MultiAccountScraper.batch_sleep_time
    constructor
    · nlinarith
    · nlinarith

/-- Concrete witness for C5 (amended): instantiation at attempts 1 ≤ 2
with draws `1/2` (comment path) and `1` (batch path). -/
theorem retry_delay_spec_witness :
    ((1 : Nat) ≤ 2 ∧
      CommentScraper.backoff_delay 1 ≤ CommentScraper.backoff_delay 2) ∧
    (|(1 : ℚ) / 2| ≤ CommentScraper.jitter ∧
      CommentScraper.jitter_delay 2 (1 / 2) ≤
        CommentScraper.max_delay + CommentScraper.max_delay * CommentScraper.jitter) ∧
    ((0 : ℚ) ≤ 1 ∧ (1 : ℚ) ≤ 1 ∧
      MultiAccountScraper.batch_backoff 0 ≤ MultiAccountScraper.batch_sleep_time 0 1 ∧
      MultiAccountScraper.batch_sleep_time 0 1 ≤
        MultiAccountScraper.batch_backoff 0 * (3 / 2)) :=
  ⟨⟨by norm_num, retry_delay_spec.1 1 2 (by norm_num)⟩,
    ⟨by rw [CommentScraper.jitter, abs_le]; norm_num,
      retry_delay_spec.2.2.1 2 (1 / 2) (by rw [CommentScraper.jitter, abs_le]; norm_num)⟩,
    ⟨by norm_num, by norm_num,
      retry_delay_spec.2.2.2.2.2 0 1 (by norm_num) (by norm_num)⟩⟩

namespace WeiboCore

/-! ## `media_platform/weibo/core.py` — `get_note_comments` error handling

The exception handler around `get_note_all_comments` classifies a
failure as `DataFetchError`, a network/timeout error
(`ReadTimeout`/`ConnectTimeout`/`ConnectError`), or a generic exception
whose lowercased text is scanned for block indicators.  The handler
mutates ad hoc instance counters (`timeout_count`,
`success_after_timeout`, `block_count`) and sleeps or exits; sleeps and
the `sys.exit(1)` call are recorded as an event trace.  The event
vocabulary also contains a progress-flush event so that the absence of
any flush before the exit is expressible; the handler never emits it
because `get_note_comments` performs no progress persistence. -/

/-- Whether `pat` is a leading segment of `s`. -/
def leadMatch : List Char → List Char → Bool
  | [], _ => true
  | _ :: _, [] => false
  | p :: ps, c :: cs => p == c && leadMatch ps cs

/-- Whether `pat` occurs contiguously inside `s` (Python `pat in s`). -/
def hasSegment : List Char → List Char → Bool
  | pat, [] => pat.isEmpty
  | pat, c :: rest => leadMatch pat (c :: rest) || hasSegment pat rest

/-- Python `str.lower()` (ASCII case folding; CJK characters unchanged). -/
def lowerStr (s : String) : String := String.mk (s.data.map Char.toLower)

/-- `indicator in error_str` on the already-lowercased strings. -/
def strContains (s pat : String) : Bool := hasSegment pat.data s.data

/-- The `block_indicators` list of `get_note_comments`. -/
def block_indicators : List String :=
  ["expecting value: line 1 column 1 (char 0)",
   "访问频率过高", "请求过于频繁", "need login", "访问受限",
   "请求被拒绝", "操作太频繁", "无权限", "请登录", "412", "403",
   "empty response", "invalid json"]

/-- `is_block = any(indicator.lower() in error_str for indicator in block_indicators)`
with `error_str = str(e).lower()`. -/
def isBlockError (msg : String) : Bool :=
  block_indicators.any (fun ind => strContains (lowerStr msg) (lowerStr ind))

/-- The ad hoc per-crawler counters touched by the handler
(`getattr(self, 'timeout_count', 0)` and friends); `has_succ_attr`
models `hasattr(self, 'success_after_timeout')`. -/
structure CrawlerState where
  timeout_count : Nat
  has_succ_attr : Bool
  success_after_timeout : Nat
  block_count : Nat
  deriving Repr, DecidableEq

/-- A fresh `WeiboCrawler`: no counter attribute set yet. -/
def freshCrawler : CrawlerState := ⟨0, false, 0, 0⟩

/-- The error classes distinguished by the `except` clauses. -/
inductive WbError
  | dataFetch (msg : String)
  | netTimeout (msg : String)
  | other (msg : String)
  deriving Repr, DecidableEq

/-- Observable actions of the handler. -/
inductive CrawlEvent
  | sleep (seconds : Nat)
  | flushProgress
  | exitRun
  deriving Repr, DecidableEq

/-- The exception handler of `get_note_comments`, returning the updated
counters and the emitted event trace. -/
def handleError (st : CrawlerState) (e : WbError) : CrawlerState × List CrawlEvent :=
  match e with
  | .dataFetch _ => (st, [.sleep 5])
  | .netTimeout _ =>
    -- self.timeout_count = getattr(self, 'timeout_count', 0) + 1
    let tc1 := st.timeout_count + 1
    -- retry_seconds = min(10 * self.timeout_count, 120); time.sleep(retry_seconds)
    let retry_seconds := min (10 * tc1) 120
    -- if hasattr(self, 'success_after_timeout'): increment it and reset
    -- timeout_count once it reaches 3; else initialize it to 0
    let next :=
      if st.has_succ_attr then
        let s := st.success_after_timeout + 1
        if 3 ≤ s then (0, s) else (tc1, s)
      else (tc1, 0)
    -- if self.timeout_count >= 15: time.sleep(300); halve the counter
    if 15 ≤ next.1 then
      (⟨next.1 / 2, true, next.2, st.block_count⟩, [.sleep retry_seconds, .sleep 300])
    else
      (⟨next.1, true, next.2, st.block_count⟩, [.sleep retry_seconds])
  | .other msg =>
    if isBlockError msg then
      -- self.block_count = getattr(self, 'block_count', 0) + 1
      if 6 ≤ st.block_count + 1 then
        ({ st with block_count := st.block_count + 1 }, [.exitRun])
      else
        ({ st with block_count := st.block_count + 1 }, [.sleep 60])
    else
      (st, [.sleep 2])

/-- A sequence of handled failures, with the concatenated event trace. -/
def runErrors (st : CrawlerState) : List WbError → CrawlerState × List CrawlEvent
  | [] => (st, [])
  | e :: es =>
    let r1 := handleError st e
    let r2 := runErrors r1.1 es
    (r2.1, r1.2 ++ r2.2)

/-- Counterexample to claim C6: a run of exactly six block failures
(HTTP 403 texts) on a fresh crawler exits at the sixth block event —
the count does not exceed the ceiling of 6, yet the run aborts — and
the trace contains no progress flush before (or anywhere around) the
exit. -/
theorem block_exit_without_flush :
    (runErrors freshCrawler (List.replicate 6 (WbError.other "403"))).2 =
      [CrawlEvent.sleep 60, CrawlEvent.sleep 60, CrawlEvent.sleep 60,
        CrawlEvent.sleep 60, CrawlEvent.sleep 60, CrawlEvent.exitRun] ∧
    (runErrors freshCrawler (List.replicate 6 (WbError.other "403"))).1.block_count = 6 ∧
    CrawlEvent.flushProgress ∉
      (runErrors freshCrawler (List.replicate 6 (WbError.other "403"))).2 := by
  refine ⟨by decide, by decide, by decide⟩

/-- Claim C6 as amended: a block-classified failure increments the
per-run block count; as soon as that count reaches 6 (the sixth distinct
block event), the handler exits the run at once — emitting no progress
flush and no further sleep — and below the ceiling it sleeps 60 seconds
and continues. -/
theorem block_ceiling_spec (st : CrawlerState) (msg : String)
    (hblock : isBlockError msg = true) :
    (5 ≤ st.block_count →
      handleError st (WbError.other msg) =
        ({ st with block_count := st.block_count + 1 }, [CrawlEvent.exitRun])) ∧
    (st.block_count < 5 →
      handleError st (WbError.other msg) =
        ({ st with block_count := st.block_count + 1 }, [CrawlEvent.sleep 60])) := by
  have he : handleError st (WbError.other msg) =
      if 6 ≤ st.block_count + 1 then
        ({ st with block_count := st.block_count + 1 }, [CrawlEvent.exitRun])
      else
        ({ st with block_count := st.block_count + 1 }, [CrawlEvent.sleep 60]) := by
    simp only [handleError, hblock, if_true]
  constructor
  · intro h
    rw [he, if_pos (by omega)]
  · intro h
    rw [he, if_neg (by omega)]

/-- Concrete witness for C6 (amended): a crawler that has already seen
five blocks exits on the next 403. -/
theorem block_ceiling_spec_witness :
    isBlockError "403" = true ∧ 5 ≤ (CrawlerState.mk 0 false 0 5).block_count ∧
    handleError (CrawlerState.mk 0 false 0 5) (WbError.other "403") =
      (CrawlerState.mk 0 false 0 6, [CrawlEvent.exitRun]) :=
  ⟨by decide, by decide,
    (block_ceiling_spec (CrawlerState.mk 0 false 0 5) "403" (by decide)).1 (by decide)⟩

/-- Claim C7, evaluated at its failing input: fifteen consecutive
network/timeout failures on a fresh crawler leave the consecutive-timeout
counter at 0 — not 15 halved to 7 — and no long multi-minute cooldown
(`time.sleep(300)`) is ever inserted.  The `success_after_timeout`
counter, meant per its name and the surrounding comments to count
consecutive *successes*, is incremented inside the *timeout* handler, so
from the fourth consecutive timeout on it zeroes `timeout_count` each
time and the `timeout_count >= 15` branch is unreachable from a fresh
crawler. -/
theorem fifteen_timeouts_no_long_cooldown :
    (runErrors freshCrawler (List.replicate 15 (WbError.netTimeout "timeout"))).1.timeout_count
        = 0 ∧
    CrawlEvent.sleep 300 ∉
      (runErrors freshCrawler (List.replicate 15 (WbError.netTimeout "timeout"))).2 := by
  refine ⟨by decide, by decide⟩

end WeiboCore

namespace ProxySdk

/-! ## `sdk/proxy_manager.py` — `ProxyManager`

`get_proxy` purges expired leases, replenishes the pool when it is below
the minimum watermark (`min_pool_size = 10`, requesting
`max(min_pool_size - len, 5)` leases), filters to leases with more than
`proxy_replacement_threshold = 60` seconds left, force-replenishes once
if none qualify, falls back to the whole pool, and returns the least
recently used lease (stable sort by `(last_used, task_count)`, first
element).  The external provider (`kuaidaili_client.get_proxies`) is an
oracle indexed by the call number within one `get_proxy` invocation.
`get_proxy` returns the selected lease (with its usage stats bumped in
place by `mark_used`), the resulting pool, and the trace of lease counts
requested from the provider. -/

/-- `IpInfoModel` as delivered by the proxy provider. -/
structure IpInfoModel where
  ip : String
  port : Nat
  user : String
  password : String
  expired_time_ts : Nat
  deriving Repr, DecidableEq

/-- `ProxyInfo.__init__`. -/
structure ProxyInfo where
  ip_info : IpInfoModel
  last_used : Nat
  is_valid : Bool
  task_count : Nat
  deriving Repr, DecidableEq

def mkProxyInfo (ip : IpInfoModel) : ProxyInfo := ⟨ip, 0, true, 0⟩

/-- `ProxyInfo.mark_used`. -/
def mark_used (p : ProxyInfo) (now : Nat) : ProxyInfo :=
  { p with last_used := now, task_count := p.task_count + 1 }

/-- `ProxyInfo.is_expired`: `current_time >= expired_time_ts`. -/
def is_expired (p : ProxyInfo) (now : Nat) : Bool :=
  p.ip_info.expired_time_ts ≤ now

/-- `ProxyInfo.time_until_expiry`: `max(0, expired_time_ts - current_time)`. -/
def time_until_expiry (p : ProxyInfo) (now : Nat) : Nat :=
  p.ip_info.expired_time_ts - now

def min_pool_size : Nat := 10

def proxy_replacement_threshold : Nat := 60

/-- The external proxy provider: call number within this acquire and
requested count to delivered leases. -/
structure ProxyEnv where
  provider : Nat → Nat → List IpInfoModel

/-- `_remove_expired_proxies`. -/
def purgedPool (proxies : List ProxyInfo) (now : Nat) : List ProxyInfo :=
  proxies.filter (fun p => !(is_expired p now))

/-- The `time_until_expiry > replacement_threshold` filter of `get_proxy`. -/
def validFilter (pool : List ProxyInfo) (now : Nat) : List ProxyInfo :=
  pool.filter (fun p => proxy_replacement_threshold < time_until_expiry p now)

/-- `_replenish_pool_if_needed`: when forced or below the watermark,
fetch `needed` (defaulting to `max(min_pool_size - len, 5)`) leases from
the provider and append them.  Returns the new pool and the requested
counts. -/
def replenish_pool_if_needed (env : ProxyEnv) (k : Nat) (needed : Option Nat)
    (force : Bool) (proxies : List ProxyInfo) : List ProxyInfo × List Nat :=
  if force || proxies.length < min_pool_size then
    let count := needed.getD (max (min_pool_size - proxies.length) 5)
    (proxies ++ (env.provider k count).map mkProxyInfo, [count])
  else (proxies, [])

/-- The selection order of `get_proxy`:
`valid_proxies.sort(key=lambda x: (x.last_used, x.task_count))`. -/
def proxyLt (p q : ProxyInfo) : Bool :=
  p.last_used < q.last_used ||
    (p.last_used == q.last_used && p.task_count < q.task_count)

/-- `ProxyManager.get_proxy`.  In the source, when the `> 60 s` filter of
the force-replenished pool is still empty the code falls back to
`self.proxies`; since the pool only grew, filtering the grown pool twice
is written once here (`validFilter s2.1`), which agrees with the source
in both branches. -/
def get_proxy (env : ProxyEnv) (enable_proxy : Bool) (proxies : List ProxyInfo)
    (now : Nat) : Option ProxyInfo × List ProxyInfo × List Nat :=
  match enable_proxy with
  | false => (none, proxies, [])
  | true =>
    let s1 := replenish_pool_if_needed env 0 none false (purgedPool proxies now)
    if s1.1 = [] then (none, s1.1, s1.2)
    else
      let s2 :=
        if validFilter s1.1 now = [] then
          ((replenish_pool_if_needed env 1 none true s1.1).1,
            s1.2 ++ (replenish_pool_if_needed env 1 none true s1.1).2)
        else s1
      match (if validFilter s2.1 now = [] then s2.1 else validFilter s2.1 now) with
      | [] => (none, s2.1, s2.2)
      | c :: cs => (some (mark_used (firstMinBy proxyLt c cs) now), s2.1, s2.2)

theorem replenish_shape (env : ProxyEnv) (k : Nat) (needed : Option Nat)
    (force : Bool) (proxies : List ProxyInfo) :
    ∃ new, (replenish_pool_if_needed env k needed force proxies).1 = proxies ++ new ∧
      ∀ q ∈ new, ∃ ip n, q = mkProxyInfo ip ∧ ip ∈ env.provider k n := by
  unfold replenish_pool_if_needed
  split
  · refine ⟨_, rfl, ?_⟩
    intro q hq
    rcases List.mem_map.mp hq with ⟨ip, hip, hmk⟩
    exact ⟨ip, _, hmk.symm, hip⟩
  · exact ⟨[], by simp, by simp⟩

theorem mem_purgedPool {proxies : List ProxyInfo} {now : Nat} {q : ProxyInfo}
    (h : q ∈ purgedPool proxies now) : now < q.ip_info.expired_time_ts := by
  have := List.of_mem_filter h
  simp only [is_expired, Bool.not_eq_true', decide_eq_false_iff_not, not_le] at this
  exact this

end ProxySdk

namespace ProxySdk

/-- Claim C4: with proxies enabled, whenever `get_proxy` returns a lease
(not `None`), that lease expires strictly after the current time —
provided the external provider only hands out unexpired leases — and the
pool it leaves behind is the input pool lazily purged of expired leases
(before selection) plus the replenished ones. -/
theorem acquire_never_returns_expired (env : ProxyEnv) (proxies : List ProxyInfo)
    (now : Nat) (p : ProxyInfo) (pool : List ProxyInfo) (reqs : List Nat)
    (hprov : ∀ k n, ∀ ip ∈ env.provider k n, now < ip.expired_time_ts)
    (h : get_proxy env true proxies now = (some p, pool, reqs)) :
    now < p.ip_info.expired_time_ts ∧
    ∃ newly, pool = purgedPool proxies now ++ newly := by
  obtain ⟨new1, hshape1, hnew1⟩ :=
    replenish_shape env 0 none false (purgedPool proxies now)
  have hs1mem : ∀ q ∈ (replenish_pool_if_needed env 0 none false
      (purgedPool proxies now)).1, now < q.ip_info.expired_time_ts := by
    intro q hq
    rw [hshape1] at hq
    rcases List.mem_append.mp hq with hq | hq
    · exact mem_purgedPool hq
    · obtain ⟨ip, n, rfl, hip⟩ := hnew1 q hq
      exact hprov 0 n ip hip
  unfold get_proxy at h
  dsimp only at h
  by_cases h1 : (replenish_pool_if_needed env 0 none false (purgedPool proxies now)).1 = []
  · rw [if_pos h1] at h
    exact absurd (congrArg Prod.fst h) (by simp)
  · rw [if_neg h1] at h
    -- the pool after the (possible) forced second replenishment
    by_cases h2 : validFilter (replenish_pool_if_needed env 0 none false
        (purgedPool proxies now)).1 now = []
    · rw [if_pos h2] at h
      obtain ⟨new2, hshape2, hnew2⟩ := replenish_shape env 1 none true
        (replenish_pool_if_needed env 0 none false (purgedPool proxies now)).1
      have hs2mem : ∀ q ∈ (replenish_pool_if_needed env 1 none true
          (replenish_pool_if_needed env 0 none false (purgedPool proxies now)).1).1,
          now < q.ip_info.expired_time_ts := by
        intro q hq
        rw [hshape2] at hq
        rcases List.mem_append.mp hq with hq | hq
        · exact hs1mem q hq
        · obtain ⟨ip, n, rfl, hip⟩ := hnew2 q hq
          exact hprov 1 n ip hip
      cases hc : (if validFilter (replenish_pool_if_needed env 1 none true
            (replenish_pool_if_needed env 0 none false (purgedPool proxies now)).1).1 now = []
          then (replenish_pool_if_needed env 1 none true
            (replenish_pool_if_needed env 0 none false (purgedPool proxies now)).1).1
          else validFilter (replenish_pool_if_needed env 1 none true
            (replenish_pool_if_needed env 0 none false (purgedPool proxies now)).1).1 now) with
      | nil =>
        rw [hc] at h
        exact absurd (congrArg Prod.fst h) (by simp)
      | cons c cs =>
        rw [hc] at h
        have hp : p = mark_used (firstMinBy proxyLt c cs) now :=
          (Option.some.inj (congrArg Prod.fst h)).symm
        have hpool : pool = (replenish_pool_if_needed env 1 none true
            (replenish_pool_if_needed env 0 none false (purgedPool proxies now)).1).1 :=
          (congrArg (fun r => r.2.1) h).symm
        have hsel : firstMinBy proxyLt c cs ∈ (replenish_pool_if_needed env 1 none true
            (replenish_pool_if_needed env 0 none false (purgedPool proxies now)).1).1 := by
          have hm := firstMinBy_mem proxyLt c cs
          rw [← hc] at hm
          by_cases hv : validFilter (replenish_pool_if_needed env 1 none true
              (replenish_pool_if_needed env 0 none false (purgedPool proxies now)).1).1 now = []
          · rwa [if_pos hv] at hm
          · rw [if_neg hv] at hm
            exact List.mem_of_mem_filter hm
        refine ⟨?_, ?_⟩
        · rw [hp]
          exact hs2mem (firstMinBy proxyLt c cs) hsel
        · refine ⟨new1 ++ new2, ?_⟩
          rw [hpool, hshape2, hshape1, List.append_assoc]
    · rw [if_neg h2] at h
      cases hc : (if validFilter (replenish_pool_if_needed env 0 none false
            (purgedPool proxies now)).1 now = []
          then (replenish_pool_if_needed env 0 none false (purgedPool proxies now)).1
          else validFilter (replenish_pool_if_needed env 0 none false
            (purgedPool proxies now)).1 now) with
      | nil =>
        rw [hc] at h
        exact absurd (congrArg Prod.fst h) (by simp)
      | cons c cs =>
        rw [hc] at h
        have hp : p = mark_used (firstMinBy proxyLt c cs) now :=
          (Option.some.inj (congrArg Prod.fst h)).symm
        have hpool : pool = (replenish_pool_if_needed env 0 none false
            (purgedPool proxies now)).1 :=
          (congrArg (fun r => r.2.1) h).symm
        have hsel : firstMinBy proxyLt c cs ∈ (replenish_pool_if_needed env 0 none false
            (purgedPool proxies now)).1 := by
          have hm := firstMinBy_mem proxyLt c cs
          rw [← hc] at hm
          rw [if_neg h2] at hm
          exact List.mem_of_mem_filter hm
        refine ⟨?_, ?_⟩
        · rw [hp]
          exact hs1mem (firstMinBy proxyLt c cs) hsel
        · exact ⟨new1, by rw [hpool, hshape1]⟩

end ProxySdk

namespace ProxySdk

/-- Concrete witness for C4: an empty pool, one fresh provider lease
expiring at 1000; the returned lease is unexpired and the pool is the
purged input plus the replenished lease. -/
theorem acquire_never_returns_expired_witness :
    ((∀ k n, ∀ ip ∈ (ProxyEnv.mk fun _ _ => [IpInfoModel.mk "" 0 "" "" 1000]).provider k n,
        0 < ip.expired_time_ts) ∧
      get_proxy (ProxyEnv.mk fun _ _ => [IpInfoModel.mk "" 0 "" "" 1000]) true [] 0 =
        (some (ProxyInfo.mk (IpInfoModel.mk "" 0 "" "" 1000) 0 true 1),
          [ProxyInfo.mk (IpInfoModel.mk "" 0 "" "" 1000) 0 true 0], [10])) ∧
    (0 < (ProxyInfo.mk (IpInfoModel.mk "" 0 "" "" 1000) 0 true 1).ip_info.expired_time_ts ∧
      ∃ newly, [ProxyInfo.mk (IpInfoModel.mk "" 0 "" "" 1000) 0 true 0] =
        purgedPool [] 0 ++ newly) := by
  have hprov : ∀ k n,
      ∀ ip ∈ (ProxyEnv.mk fun _ _ => [IpInfoModel.mk "" 0 "" "" 1000]).provider k n,
        0 < ip.expired_time_ts := by
    intro k n ip hip
    simp only [List.mem_singleton] at hip
    subst hip
    norm_num
  have hres : get_proxy (ProxyEnv.mk fun _ _ => [IpInfoModel.mk "" 0 "" "" 1000]) true [] 0 =
      (some (ProxyInfo.mk (IpInfoModel.mk "" 0 "" "" 1000) 0 true 1),
        [ProxyInfo.mk (IpInfoModel.mk "" 0 "" "" 1000) 0 true 0], [10]) := by decide
  exact ⟨⟨hprov, hres⟩,
    acquire_never_returns_expired (ProxyEnv.mk fun _ _ => [IpInfoModel.mk "" 0 "" "" 1000])
      [] 0 _ _ _ hprov hres⟩

/-- Claim C9: a `get_proxy` call on an empty pool (below the watermark)
makes exactly one replenishment request to the provider, asking for 10
(≥ 5, the hard floor of `max(min_pool_size - len, 5)`) leases, and that
replenishment completes before the call returns — the returned lease
comes from it — provided the response contains at least one lease
clearing the 60-second replacement margin. -/
theorem empty_pool_single_replenish (env : ProxyEnv) (now : Nat)
    (hfresh : ∃ ip ∈ env.provider 0 10,
      proxy_replacement_threshold + now < ip.expired_time_ts) :
    (get_proxy env true [] now).2.2 = [10] ∧
    (∀ c ∈ (get_proxy env true [] now).2.2, 5 ≤ c) ∧
    (∃ p, (get_proxy env true [] now).1 = some p) ∧
    (get_proxy env true [] now).2.1 = (env.provider 0 10).map mkProxyInfo := by
  obtain ⟨ip, hip, hexp⟩ := hfresh
  have hmem : mkProxyInfo ip ∈ (env.provider 0 10).map mkProxyInfo :=
    List.mem_map_of_mem mkProxyInfo hip
  have hne : (env.provider 0 10).map mkProxyInfo ≠ [] := List.ne_nil_of_mem hmem
  have hvmem : mkProxyInfo ip ∈ validFilter ((env.provider 0 10).map mkProxyInfo) now := by
    refine List.mem_filter.mpr ⟨hmem, ?_⟩
    simp only [mkProxyInfo, time_until_expiry, decide_eq_true_eq]
    unfold proxy_replacement_threshold at hexp ⊢
    omega
  have hvne : validFilter ((env.provider 0 10).map mkProxyInfo) now ≠ [] :=
    List.ne_nil_of_mem hvmem
  have hs1 : replenish_pool_if_needed env 0 none false (purgedPool [] now) =
      ((env.provider 0 10).map mkProxyInfo, [10]) := rfl
  have heval : ∃ c cs, get_proxy env true [] now =
      (some (mark_used (firstMinBy proxyLt c cs) now),
        (env.provider 0 10).map mkProxyInfo, [10]) := by
    cases hv : validFilter ((env.provider 0 10).map mkProxyInfo) now with
    | nil => exact absurd hv hvne
    | cons c cs =>
      refine ⟨c, cs, ?_⟩
      unfold get_proxy
      dsimp only
      rw [hs1]
      dsimp only
      rw [if_neg hne, if_neg hvne]
      dsimp only
      rw [if_neg hvne, hv]
  obtain ⟨c, cs, hres⟩ := heval
  rw [hres]
  exact ⟨rfl, by intro x hx; simp at hx; omega, ⟨_, rfl⟩, rfl⟩

/-- Concrete witness for C9: empty pool, provider delivering one lease
with 1000 seconds of validity. -/
theorem empty_pool_single_replenish_witness :
    (∃ ip ∈ (ProxyEnv.mk fun _ _ => [IpInfoModel.mk "" 0 "" "" 1000]).provider 0 10,
      proxy_replacement_threshold + 0 < ip.expired_time_ts) ∧
    (get_proxy (ProxyEnv.mk fun _ _ => [IpInfoModel.mk "" 0 "" "" 1000]) true [] 0).2.2
        = [10] ∧
    (∀ c ∈ (get_proxy (ProxyEnv.mk fun _ _ => [IpInfoModel.mk "" 0 "" "" 1000])
        true [] 0).2.2, 5 ≤ c) ∧
    (∃ p, (get_proxy (ProxyEnv.mk fun _ _ => [IpInfoModel.mk "" 0 "" "" 1000])
        true [] 0).1 = some p) ∧
    (get_proxy (ProxyEnv.mk fun _ _ => [IpInfoModel.mk "" 0 "" "" 1000]) true [] 0).2.1 =
      ((ProxyEnv.mk fun _ _ => [IpInfoModel.mk "" 0 "" "" 1000]).provider 0 10).map
        mkProxyInfo := by
  have hfresh : ∃ ip ∈ (ProxyEnv.mk fun _ _ => [IpInfoModel.mk "" 0 "" "" 1000]).provider 0 10,
      proxy_replacement_threshold + 0 < ip.expired_time_ts := by
    refine ⟨IpInfoModel.mk "" 0 "" "" 1000, by simp, by decide⟩
  exact ⟨hfresh,
    empty_pool_single_replenish (ProxyEnv.mk fun _ _ => [IpInfoModel.mk "" 0 "" "" 1000])
      0 hfresh⟩

end ProxySdk

/-! ## Stable sort (structural recursion, kernel-evaluable).

Python's `list.sort(key=...)` is a stable sort.  A stable sort by a
given total preorder is unique, so stable insertion sort below produces
exactly the list `list.sort` produces: `insertSorted` passes an element
over every strictly smaller one and places it before the first
not-smaller one, keeping earlier elements first among equals. -/

namespace AccountSdk

/-! ## `sdk/account_manager.py` — `AccountManager`

`get_accounts_for_concurrent_tasks(platform, count)` works on the
platform's account list: it returns `[]` when the platform has no
accounts; otherwise it sorts the list in place by
`(last_used, task_count)`, takes the first `min(count, len)` accounts,
and fills the remaining slots with `random.choice` over the same list,
calling `mark_used` on every selected slot.  The `random.choice` draws
are an oracle giving an index into the list for each extra slot; the
returned slots are represented as indices into the sorted list, whose
entries the repeated `mark_used` calls mutate in place. -/

/-- `Account.__init__` state (cookies and login bookkeeping opaque). -/
structure Account where
  platform : String
  username : String
  password : String
  is_logged_in : Bool
  last_used : Nat
  task_count : Nat
  deriving Repr, DecidableEq

/-- `Account.mark_used`. -/
def mark_used (a : Account) (now : Nat) : Account :=
  { a with last_used := now, task_count := a.task_count + 1 }

end AccountSdk

namespace AccountSdk

end AccountSdk
